import Mathlib

/-!
Verification of the period-based compounding projection engine of the
`finances` repository (`calculateGrowth` and its helpers).

The TypeScript source works on IEEE floating point numbers; here every
quantity lives in an arbitrary `LinearOrderedField` (instantiated at `ℚ`
for concrete evaluations), so all algebraic identities are exact.  The
single genuinely irrational quantity of the source, the monthly inflation
factor `Math.pow(1 + inflationRate / 100, 1 / 12)`, is supplied as an
explicit field `monthlyInflationFactor` of the input structure; every
other number computed by the engine is a rational function of the inputs
together with that factor, and no claim below depends on its actual value.
-/

namespace Finances

variable {F : Type} [LinearOrderedField F]

/-- `YearlyBalance`: one yearly snapshot produced by the engine
(source: `src/unnamed/part_001`, interface `YearlyBalance`). -/
structure YearlyBalance (F : Type) where
  age : F
  balance : F
  realBalance : F
  contributions : F
  growth : F
  withdrawalRate : F
  taxPaid : F
deriving DecidableEq

/-- `Period`: one financial regime, a half-open age interval with
contribution, spending and an optional return override
(source interface `Period`). -/
structure Period (F : Type) where
  startAge : F
  endAge : F
  monthlyContribution : F
  monthlySpending : F
  annualReturn : Option F
deriving DecidableEq

/-- The optional ISK tax policy (source field `iskTax`). -/
structure IskTax (F : Type) where
  enabled : Bool
  governmentBorrowingRate : F
deriving DecidableEq

/-- The full input structure of `calculateGrowth`
(source interface `CalculationInputs`; the source defaults are
`endAge = 100`, `inflationRate = 0`, `iskTax` absent).
`monthlyInflationFactor` models the source's
`Math.pow(1 + inflationRate / 100, 1 / 12)`, which is irrational and
therefore passed in explicitly. -/
structure CalculationInputs (F : Type) where
  initialAmount : F
  periods : List (Period F)
  annualReturn : F
  endAge : F
  inflationRate : F
  iskTax : Option (IskTax F)
  monthlyInflationFactor : F
deriving DecidableEq

/-- `p` is active at `age`: the half-open interval test
`age >= period.startAge && age < period.endAge` of the source. -/
def periodContains (p : Period F) (age : F) : Prop :=
  p.startAge ≤ age ∧ age < p.endAge

instance (p : Period F) (age : F) : Decidable (periodContains p age) := by
  unfold periodContains; infer_instance

/-- Stable insertion step of the sort on `startAge`; together with
`sortPeriods` this models the JavaScript stable
`[...periods].sort((a, b) => a.startAge - b.startAge)` of source line 446. -/
def insertPeriod (p : Period F) : List (Period F) → List (Period F)
  | [] => [p]
  | q :: qs => if p.startAge ≤ q.startAge then p :: q :: qs else q :: insertPeriod p qs

/-- The private sorted copy of the caller's period list (source line 446). -/
def sortPeriods : List (Period F) → List (Period F)
  | [] => []
  | p :: ps => insertPeriod p (sortPeriods ps)

/-- `getPeriodForAge` (source lines 464-472): first period of the sorted
list whose half-open interval contains `age`, else `null`. -/
def getPeriodForAge (sortedPeriods : List (Period F)) (age : F) : Option (Period F) :=
  match sortedPeriods with
  | [] => none
  | p :: rest => if periodContains p age then some p else getPeriodForAge rest age

/-- The locals of `calculateGrowth` that the monthly loop closes over. -/
structure EngineCtx (F : Type) where
  sortedPeriods : List (Period F)
  startAge : F
  annualReturn : F
  inflation : F
  monthlyInflationFactor : F
  iskTax : Option (IskTax F)

/-- The mutable locals of the monthly loop of `calculateGrowth`. -/
structure EngineState (F : Type) where
  balance : F
  inflationMultiplier : F
  cumulativeTaxPaid : F
  totalContributions : F
  yearlyBalances : List (YearlyBalance F)
deriving DecidableEq

/-- The fractional age at the start of month `month`
(source line 490: `startAge + (month - 1) / 12`). -/
def monthAge (ctx : EngineCtx F) (month : ℕ) : F :=
  ctx.startAge + ((month : F) - 1) / 12

/-- Growth, inflation advance and contribution/spending part of the loop
body of `calculateGrowth` (source lines 490-508). -/
def applyMonth (ctx : EngineCtx F) (month : ℕ) (s : EngineState F) : EngineState F :=
  let activePeriod := getPeriodForAge ctx.sortedPeriods (monthAge ctx month)
  let effectiveReturn := (activePeriod.bind Period.annualReturn).getD ctx.annualReturn
  let monthlyRate := effectiveReturn / 100 / 12
  let balance1 := s.balance * (1 + monthlyRate)
  let inflationMultiplier := s.inflationMultiplier * ctx.monthlyInflationFactor
  match activePeriod with
  | some p =>
      { s with
        balance := balance1 + p.monthlyContribution - p.monthlySpending * inflationMultiplier
        inflationMultiplier := inflationMultiplier
        totalContributions := s.totalContributions + p.monthlyContribution }
  | none =>
      { s with balance := balance1, inflationMultiplier := inflationMultiplier }

/-- The ISK tax applied at a year boundary (source lines 514-519): new
balance and new cumulative tax. -/
def taxedBalance (ctx : EngineCtx F) (s : EngineState F) : F × F :=
  match ctx.iskTax with
  | some t =>
      if t.enabled then
        let annualTax := s.balance * (t.governmentBorrowingRate / 100) * (3 / 10)
        (s.balance - annualTax, s.cumulativeTaxPaid + annualTax)
      else (s.balance, s.cumulativeTaxPaid)
  | none => (s.balance, s.cumulativeTaxPaid)

/-- The snapshot pushed at a year boundary (source lines 521-537), built
from the state at the end of month `month`. -/
def yearSnapshot (ctx : EngineCtx F) (month : ℕ) (s : EngineState F) : YearlyBalance F :=
  let age := ctx.startAge + (month : F) / 12
  let yearsElapsed := month / 12
  let balance := (taxedBalance ctx s).1
  let growth := balance - s.totalContributions
  let currentPeriod := getPeriodForAge ctx.sortedPeriods age
  let annualSpending :=
    match currentPeriod with
    | some p => p.monthlySpending * 12 * s.inflationMultiplier
    | none => 0
  let withdrawalRate := if 0 < balance then annualSpending / balance * 100 else 0
  let realBalance := balance / (1 + ctx.inflation) ^ yearsElapsed
  ⟨age, balance, realBalance, s.totalContributions, growth, withdrawalRate,
    (taxedBalance ctx s).2⟩

/-- Year-boundary part of the loop body (source lines 510-538): apply the
tax and push the snapshot. -/
def emitYear (ctx : EngineCtx F) (month : ℕ) (s : EngineState F) : EngineState F :=
  { s with
    balance := (taxedBalance ctx s).1
    cumulativeTaxPaid := (taxedBalance ctx s).2
    yearlyBalances := s.yearlyBalances ++ [yearSnapshot ctx month s] }

/-- One iteration of the monthly loop of `calculateGrowth`
(source lines 489-539). -/
def stepMonth (ctx : EngineCtx F) (month : ℕ) (s : EngineState F) : EngineState F :=
  let s1 := applyMonth ctx month s
  if month % 12 = 0 then emitYear ctx month s1 else s1

/-- The monthly loop run for months `1, 2, ..., m`. -/
def runMonths (ctx : EngineCtx F) (s0 : EngineState F) : ℕ → EngineState F
  | 0 => s0
  | m + 1 => stepMonth ctx (m + 1) (runMonths ctx s0 m)

/-- The snapshot pushed before any stepping (source lines 474-487). -/
def initialSnapshot (ctx : EngineCtx F) (initialAmount : F) : YearlyBalance F :=
  let initialPeriod := getPeriodForAge ctx.sortedPeriods ctx.startAge
  let initialAnnualSpending :=
    match initialPeriod with
    | some p => p.monthlySpending * 12
    | none => 0
  let initialWithdrawalRate :=
    if 0 < initialAmount then initialAnnualSpending / initialAmount * 100 else 0
  ⟨ctx.startAge, initialAmount, initialAmount, initialAmount, 0, initialWithdrawalRate, 0⟩

/-- Number of iterations of `for (let month = 1; month <= months; month++)`
when `months` is the (possibly fractional, possibly negative) field value
`totalYears * 12`. -/
def numMonths [FloorRing F] (totalYears : F) : ℕ :=
  (⌊totalYears * 12⌋).toNat

/-- The locals of `calculateGrowth` captured by its loop, given the sorted
period list `p0 :: rest` (source lines 452-460). -/
def engineCtx (inputs : CalculationInputs F) (p0 : Period F) (rest : List (Period F)) :
    EngineCtx F :=
  { sortedPeriods := p0 :: rest
    startAge := p0.startAge
    annualReturn := inputs.annualReturn
    inflation := inputs.inflationRate / 100
    monthlyInflationFactor := inputs.monthlyInflationFactor
    iskTax := inputs.iskTax }

/-- The loop state just before month 1, with the initial snapshot already
pushed (source lines 458-487). -/
def engineInit (ctx : EngineCtx F) (initialAmount : F) : EngineState F :=
  { balance := initialAmount
    inflationMultiplier := 1
    cumulativeTaxPaid := 0
    totalContributions := initialAmount
    yearlyBalances := [initialSnapshot ctx initialAmount] }

/-- The projection engine `calculateGrowth` (source lines 437-542).
Throwing `new Error('At least one period is required')` is modelled by
`Except.error` of the same message. -/
def calculateGrowth [FloorRing F] (inputs : CalculationInputs F) :
    Except String (List (YearlyBalance F)) :=
  match sortPeriods inputs.periods with
  | [] => .error "At least one period is required"
  | p0 :: rest =>
      let ctx := engineCtx inputs p0 rest
      .ok (runMonths ctx (engineInit ctx inputs.initialAmount)
        (numMonths (inputs.endAge - p0.startAge))).yearlyBalances

/-! ### Reference definitions written from the specification's words (§4)

These are the second side of the refinement claim C1: an independent
formulation of the monthly-step semantics described in the specification,
to be proved equal to the engine above. -/

/-- Spec §4: "the start age is the minimum `startAge` among regimes". -/
def specStartAge : List (Period F) → Option F
  | [] => none
  | p :: ps => some (ps.foldl (fun a q => min a q.startAge) p.startAge)

/-- Spec §4: "the active regime is the FIRST regime (in
ascending-`startAge` order) whose interval `[startAge, endAge)` contains
that age". -/
def specActiveRegime (regimes : List (Period F)) (age : F) : Option (Period F) :=
  (sortPeriods regimes).find? (fun p => decide (periodContains p age))

/-- Monthly contribution of an optional regime (zero when no regime is
active: spec §4 "no contribution/spending ... applies for that step"). -/
def specContribution : Option (Period F) → F
  | some r => r.monthlyContribution
  | none => 0

/-- Monthly spending of an optional regime (zero when none is active). -/
def specSpending : Option (Period F) → F
  | some r => r.monthlySpending
  | none => 0

/-- Spec §4 step 2: "Effective annual return = regime's override return if
present, else the global rate". -/
def specEffectiveReturn (regime : Option (Period F)) (globalReturn : F) : F :=
  match regime with
  | some r => match r.annualReturn with
    | some o => o
    | none => globalReturn
  | none => globalReturn

/-- The tax-rate basis actually charged: the government borrowing rate when
the policy is enabled, zero otherwise. -/
def specTaxRate : Option (IskTax F) → F
  | some t => if t.enabled then t.governmentBorrowingRate else 0
  | none => 0

/-- The running state of the spec §4 monthly recurrence. -/
structure SpecState (F : Type) where
  balance : F
  inflationMultiplier : F
  cumulativeTax : F
  contributions : F
deriving DecidableEq

/-- Spec §4 per-month step, in the committed order: resolve the regime at
the month-start age, apply the return multiplicatively, advance the
inflation multiplier, add the contribution and subtract inflation-scaled
spending, then charge the tax when the month completes a year. -/
def specStep (inputs : CalculationInputs F) (a0 : F) (month : ℕ) (st : SpecState F) :
    SpecState F :=
  let age := a0 + ((month : F) - 1) / 12
  let regime := specActiveRegime inputs.periods age
  let annualRate := specEffectiveReturn regime inputs.annualReturn
  let grown := st.balance * (1 + annualRate / 100 / 12)
  let mult := st.inflationMultiplier * inputs.monthlyInflationFactor
  let bal2 := grown + specContribution regime - specSpending regime * mult
  let contribs := st.contributions + specContribution regime
  if month % 12 = 0 then
    let annualTax := bal2 * (specTaxRate inputs.iskTax / 100) * (3 / 10)
    ⟨bal2 - annualTax, mult, st.cumulativeTax + annualTax, contribs⟩
  else
    ⟨bal2, mult, st.cumulativeTax, contribs⟩

/-- The spec state after months `1, ..., m` starting from the initial
balance. -/
def specStateAt (inputs : CalculationInputs F) (a0 : F) : ℕ → SpecState F
  | 0 => ⟨inputs.initialAmount, 1, 0, inputs.initialAmount⟩
  | m + 1 => specStep inputs a0 (m + 1) (specStateAt inputs a0 m)

/-- The spec snapshot emitted at the end of month `month` (a multiple of
12, or 0 for the first snapshot): spec §4 step 5 and the "first snapshot"
paragraph. -/
def specSnapshotAt (inputs : CalculationInputs F) (a0 : F) (month : ℕ) : YearlyBalance F :=
  let st := specStateAt inputs a0 month
  let age := a0 + (month : F) / 12
  let regime := specActiveRegime inputs.periods age
  let annualSpending := specSpending regime * 12 * st.inflationMultiplier
  let withdrawalRate := if 0 < st.balance then annualSpending / st.balance * 100 else 0
  ⟨age, st.balance, st.balance / (1 + inputs.inflationRate / 100) ^ (month / 12),
    st.contributions, st.balance - st.contributions, withdrawalRate, st.cumulativeTax⟩

/-- The whole trajectory recomputed directly from the spec §4 monthly-step
definition: one snapshot before stepping and one at every completed year. -/
def specTrajectory [FloorRing F] (inputs : CalculationInputs F) : List (YearlyBalance F) :=
  match specStartAge inputs.periods with
  | none => []
  | some a0 =>
      let n := numMonths (inputs.endAge - a0)
      (List.range (n / 12 + 1)).map (fun y => specSnapshotAt inputs a0 (12 * y))

/-! ### Properties of the stable sort -/

theorem insertPeriod_perm (p : Period F) (l : List (Period F)) :
    List.Perm (insertPeriod p l) (p :: l) := by
  induction l with
  | nil => simp [insertPeriod]
  | cons q qs ih =>
      by_cases h : p.startAge ≤ q.startAge
      · simp [insertPeriod, h]
      · rw [insertPeriod, if_neg h]
        exact (ih.cons q).trans (List.Perm.swap p q qs)

theorem sortPeriods_perm (l : List (Period F)) : List.Perm (sortPeriods l) l := by
  induction l with
  | nil => exact List.Perm.refl _
  | cons p ps ih => exact (insertPeriod_perm p _).trans (ih.cons p)

theorem mem_sortPeriods {p : Period F} {l : List (Period F)} :
    p ∈ sortPeriods l ↔ p ∈ l :=
  (sortPeriods_perm l).mem_iff

theorem sortPeriods_eq_nil_iff {l : List (Period F)} :
    sortPeriods l = [] ↔ l = [] := by
  constructor
  · intro h
    have := (sortPeriods_perm l).length_eq
    rw [h] at this
    exact List.length_eq_zero.1 this.symm
  · intro h; rw [h]; rfl

theorem insertPeriod_pairwise {p : Period F} {l : List (Period F)}
    (h : l.Pairwise (fun a b => a.startAge ≤ b.startAge)) :
    (insertPeriod p l).Pairwise (fun a b => a.startAge ≤ b.startAge) := by
  induction l with
  | nil => simp [insertPeriod]
  | cons q qs ih =>
      rcases List.pairwise_cons.1 h with ⟨hq, hqs⟩
      by_cases hle : p.startAge ≤ q.startAge
      · rw [insertPeriod, if_pos hle]
        refine List.pairwise_cons.2 ⟨?_, h⟩
        intro b hb
        rcases List.mem_cons.1 hb with rfl | hb
        · exact hle
        · exact le_trans hle (hq b hb)
      · rw [insertPeriod, if_neg hle]
        refine List.pairwise_cons.2 ⟨?_, ih hqs⟩
        intro b hb
        rcases List.mem_cons.1 ((insertPeriod_perm p qs).mem_iff.1 hb) with rfl | hb
        · exact le_of_not_le hle
        · exact hq b hb

theorem sortPeriods_pairwise (l : List (Period F)) :
    (sortPeriods l).Pairwise (fun a b => a.startAge ≤ b.startAge) := by
  induction l with
  | nil => exact List.Pairwise.nil
  | cons p ps ih => exact insertPeriod_pairwise ih

/-- The head of the sorted copy realises the minimum `startAge`. -/
theorem sortPeriods_head_min {l : List (Period F)} {p0 : Period F}
    {rest : List (Period F)} (h : sortPeriods l = p0 :: rest) :
    p0 ∈ l ∧ ∀ q ∈ l, p0.startAge ≤ q.startAge := by
  have hmem : p0 ∈ l := mem_sortPeriods.1 (h ▸ List.mem_cons_self p0 rest)
  refine ⟨hmem, fun q hq => ?_⟩
  have hq' : q ∈ sortPeriods l := mem_sortPeriods.2 hq
  rw [h] at hq'
  rcases List.mem_cons.1 hq' with rfl | hq'
  · exact le_refl _
  · have hp : (sortPeriods l).Pairwise (fun a b : Period F => a.startAge ≤ b.startAge) :=
      sortPeriods_pairwise l
    rw [h] at hp
    exact (List.pairwise_cons.1 hp).1 q hq'

/-- Key stability property of the stable insertion: inserting `p` never
reorders the elements whose `startAge` equals any fixed key. -/
theorem insertPeriod_filter_eq (p : Period F) (l : List (Period F)) (k : F) :
    (insertPeriod p l).filter (fun q => decide (q.startAge = k)) =
      if p.startAge = k then p :: l.filter (fun q => decide (q.startAge = k))
      else l.filter (fun q => decide (q.startAge = k)) := by
  induction l with
  | nil => by_cases h : p.startAge = k <;> simp [insertPeriod, h]
  | cons q qs ih =>
      by_cases hle : p.startAge ≤ q.startAge
      · rw [insertPeriod, if_pos hle]
        by_cases h : p.startAge = k <;> simp [List.filter_cons, h]
      · rw [insertPeriod, if_neg hle]
        have hqp : q.startAge < p.startAge := lt_of_not_le hle
        by_cases hq : q.startAge = k
        · have hp : ¬ p.startAge = k := fun hp => by
            rw [hp, ← hq] at hqp; exact lt_irrefl _ hqp
          simp [List.filter_cons, hq, hp, ih]
        · by_cases hp : p.startAge = k <;> simp [List.filter_cons, hq, hp, ih]

/-- Stability of the sort: for every key, the sublist of periods with that
exact `startAge` appears in the sorted copy in its original order. -/
theorem sortPeriods_filter_eq (l : List (Period F)) (k : F) :
    (sortPeriods l).filter (fun q => decide (q.startAge = k)) =
      l.filter (fun q => decide (q.startAge = k)) := by
  induction l with
  | nil => rfl
  | cons p ps ih =>
      rw [sortPeriods, insertPeriod_filter_eq]
      by_cases h : p.startAge = k <;> simp [List.filter_cons, h, ih]

/-! ### Properties of first-match lookup -/

theorem getPeriodForAge_eq_find? (l : List (Period F)) (age : F) :
    getPeriodForAge l age = l.find? (fun p => decide (periodContains p age)) := by
  induction l with
  | nil => rfl
  | cons p ps ih =>
      rw [getPeriodForAge, List.find?_cons]
      by_cases h : periodContains p age <;> simp [h, ih]

theorem getPeriodForAge_contains {l : List (Period F)} {age : F} {q : Period F}
    (h : getPeriodForAge l age = some q) : periodContains q age := by
  rw [getPeriodForAge_eq_find?] at h
  simpa using List.find?_some h

/-- Decomposition characterisation of first-match. -/
theorem getPeriodForAge_eq_some_iff {l : List (Period F)} {age : F} {q : Period F} :
    getPeriodForAge l age = some q ↔
      ∃ l₁ l₂, l = l₁ ++ q :: l₂ ∧ periodContains q age ∧
        ∀ p ∈ l₁, ¬ periodContains p age := by
  induction l with
  | nil => simp [getPeriodForAge]
  | cons x xs ih =>
      rw [getPeriodForAge]
      by_cases hx : periodContains x age
      · rw [if_pos hx]
        constructor
        · rintro h
          injection h with h
          exact ⟨[], xs, by rw [h]; rfl, h ▸ hx, by simp⟩
        · rintro ⟨l₁, l₂, hdec, hq, hfail⟩
          cases l₁ with
          | nil =>
              injection hdec with h1 _
              rw [h1]
          | cons y ys =>
              injection hdec with h1 _
              exact absurd (h1 ▸ hx) (hfail y (List.mem_cons_self y ys))
      · rw [if_neg hx, ih]
        constructor
        · rintro ⟨l₁, l₂, hdec, hq, hfail⟩
          refine ⟨x :: l₁, l₂, by rw [hdec, List.cons_append], hq, ?_⟩
          intro p hp
          rcases List.mem_cons.1 hp with rfl | hp
          · exact hx
          · exact hfail p hp
        · rintro ⟨l₁, l₂, hdec, hq, hfail⟩
          cases l₁ with
          | nil =>
              injection hdec with h1 _
              exact absurd (h1 ▸ hq) hx
          | cons y ys =>
              injection hdec with h1 h2
              exact ⟨ys, l₂, h2, hq, fun p hp => hfail p (h1 ▸ List.mem_cons_of_mem y hp)⟩

theorem getPeriodForAge_eq_none_iff {l : List (Period F)} {age : F} :
    getPeriodForAge l age = none ↔ ∀ p ∈ l, ¬ periodContains p age := by
  rw [getPeriodForAge_eq_find?, List.find?_eq_none]
  simp

/-- Over a list sorted by `startAge`, the first match has minimal
`startAge` among all matches. -/
theorem getPeriodForAge_min {l : List (Period F)} {age : F} {q : Period F}
    (hs : l.Pairwise (fun a b => a.startAge ≤ b.startAge))
    (h : getPeriodForAge l age = some q) :
    ∀ p ∈ l, periodContains p age → q.startAge ≤ p.startAge := by
  induction l with
  | nil => simp [getPeriodForAge] at h
  | cons x xs ih =>
      rcases List.pairwise_cons.1 hs with ⟨hx, hxs⟩
      rw [getPeriodForAge] at h
      by_cases hcx : periodContains x age
      · rw [if_pos hcx] at h
        injection h with h
        subst h
        intro p hp _
        rcases List.mem_cons.1 hp with rfl | hp
        · exact le_refl _
        · exact hx p hp
      · rw [if_neg hcx] at h
        intro p hp hc
        rcases List.mem_cons.1 hp with rfl | hp
        · exact absurd hc hcx
        · exact ih hxs h p hp hc

/-- First-match survives filtering by any property the found element has. -/
theorem find?_filter_of_find? {α : Type} (pr f : α → Bool) (l : List α) (a : α)
    (h : l.find? pr = some a) (hf : f a = true) :
    (l.filter f).find? pr = some a := by
  induction l with
  | nil => simp at h
  | cons x xs ih =>
      by_cases hx : pr x = true
      · rw [List.find?_cons_of_pos _ hx] at h
        injection h with h
        subst h
        rw [List.filter_cons, if_pos hf, List.find?_cons_of_pos _ hx]
      · rw [List.find?_cons_of_neg _ hx] at h
        rw [List.filter_cons]
        by_cases hfx : f x = true
        · rw [if_pos hfx, List.find?_cons_of_neg _ hx]
          exact ih h
        · rw [if_neg hfx]
          exact ih h

/-! ### Structural lemmas about the engine loop -/

theorem calculateGrowth_ok [FloorRing F] {inputs : CalculationInputs F}
    {p0 : Period F} {rest : List (Period F)}
    (hs : sortPeriods inputs.periods = p0 :: rest) :
    calculateGrowth inputs =
      .ok (runMonths (engineCtx inputs p0 rest)
        (engineInit (engineCtx inputs p0 rest) inputs.initialAmount)
        (numMonths (inputs.endAge - p0.startAge))).yearlyBalances := by
  simp only [calculateGrowth]
  rw [hs]

theorem applyMonth_yearlyBalances (ctx : EngineCtx F) (month : ℕ) (s : EngineState F) :
    (applyMonth ctx month s).yearlyBalances = s.yearlyBalances := by
  simp only [applyMonth]
  cases getPeriodForAge ctx.sortedPeriods (monthAge ctx month) <;> rfl

theorem applyMonth_cumulativeTaxPaid (ctx : EngineCtx F) (month : ℕ) (s : EngineState F) :
    (applyMonth ctx month s).cumulativeTaxPaid = s.cumulativeTaxPaid := by
  simp only [applyMonth]
  cases getPeriodForAge ctx.sortedPeriods (monthAge ctx month) <;> rfl

theorem emitYear_yearlyBalances (ctx : EngineCtx F) (month : ℕ) (s : EngineState F) :
    (emitYear ctx month s).yearlyBalances =
      s.yearlyBalances ++ [yearSnapshot ctx month s] := rfl

theorem stepMonth_yearlyBalances (ctx : EngineCtx F) (month : ℕ) (s : EngineState F) :
    (stepMonth ctx month s).yearlyBalances =
      s.yearlyBalances ++
        (if month % 12 = 0 then [yearSnapshot ctx month (applyMonth ctx month s)]
         else []) := by
  simp only [stepMonth]
  by_cases h : month % 12 = 0
  · rw [if_pos h, if_pos h, emitYear_yearlyBalances, applyMonth_yearlyBalances]
  · rw [if_neg h, if_neg h, applyMonth_yearlyBalances, List.append_nil]

/-- Every snapshot emitted by the loop arises as `yearSnapshot` at some
month `1 ≤ month ≤ m` with `month % 12 = 0`; hence any property of all
such snapshots holds for everything the loop appends. -/
theorem runMonths_snaps (P : YearlyBalance F → Prop) (ctx : EngineCtx F) (s0 : EngineState F)
    (hstep : ∀ month s, 1 ≤ month → month % 12 = 0 → P (yearSnapshot ctx month s)) (m : ℕ) :
    ∃ t, (runMonths ctx s0 m).yearlyBalances = s0.yearlyBalances ++ t ∧ ∀ x ∈ t, P x := by
  induction m with
  | zero => exact ⟨[], by simp [runMonths], by simp⟩
  | succ m ih =>
      rcases ih with ⟨t, hybs, hP⟩
      rw [runMonths, stepMonth_yearlyBalances, hybs]
      by_cases h12 : (m + 1) % 12 = 0
      · rw [if_pos h12, List.append_assoc]
        refine ⟨t ++ [yearSnapshot ctx (m + 1) (applyMonth ctx (m + 1) (runMonths ctx s0 m))],
          rfl, ?_⟩
        intro x hx
        rcases List.mem_append.1 hx with hx | hx
        · exact hP x hx
        · rw [List.mem_singleton.1 hx]
          exact hstep (m + 1) _ (Nat.le_add_left 1 m) h12
      · rw [if_neg h12, List.append_nil]
        exact ⟨t, rfl, hP⟩

theorem runMonths_ybs_mono (ctx : EngineCtx F) (s0 : EngineState F) (m k : ℕ) :
    ∃ t, (runMonths ctx s0 (m + k)).yearlyBalances =
      (runMonths ctx s0 m).yearlyBalances ++ t := by
  induction k with
  | zero => exact ⟨[], by simp⟩
  | succ k ih =>
      rcases ih with ⟨t, ht⟩
      rw [show m + (k + 1) = (m + k) + 1 from rfl, runMonths, stepMonth_yearlyBalances, ht,
        List.append_assoc]
      exact ⟨_, rfl⟩

theorem runMonths_mem_mono (ctx : EngineCtx F) (s0 : EngineState F) {m n : ℕ}
    (hmn : m ≤ n) {x : YearlyBalance F}
    (hx : x ∈ (runMonths ctx s0 m).yearlyBalances) :
    x ∈ (runMonths ctx s0 n).yearlyBalances := by
  rcases runMonths_ybs_mono ctx s0 m (n - m) with ⟨t, ht⟩
  rw [Nat.add_sub_cancel' hmn] at ht
  rw [ht]
  exact List.mem_append_left t hx

theorem calculateGrowth_error_of_nil [FloorRing F] {inputs : CalculationInputs F}
    (hs : sortPeriods inputs.periods = []) :
    calculateGrowth inputs = .error "At least one period is required" := by
  simp only [calculateGrowth]
  rw [hs]

/-! ### Claim theorems -/

/-- Claim C2: `calculateGrowth` fails if and only if the supplied regime
list is empty; every non-empty regime list yields a snapshot sequence. -/
theorem calculateGrowth_error_iff_empty [FloorRing F] (inputs : CalculationInputs F) :
    ((∃ e, calculateGrowth inputs = .error e) ↔ inputs.periods = [])
    ∧ (inputs.periods ≠ [] → ∃ l, calculateGrowth inputs = .ok l) := by
  constructor
  · constructor
    · rintro ⟨e, he⟩
      cases hs : sortPeriods inputs.periods with
      | nil => exact sortPeriods_eq_nil_iff.1 hs
      | cons p0 rest =>
          rw [calculateGrowth_ok hs] at he
          exact absurd he (by simp)
    · intro h
      exact ⟨_, calculateGrowth_error_of_nil (sortPeriods_eq_nil_iff.2 h)⟩
  · intro h
    cases hs : sortPeriods inputs.periods with
    | nil => exact absurd (sortPeriods_eq_nil_iff.1 hs) h
    | cons p0 rest => exact ⟨_, calculateGrowth_ok hs⟩

/-- Claim C5: every snapshot of every successful run satisfies
`balance = contributions + growth` exactly. -/
theorem snapshot_balance_eq_contributions_add_growth [FloorRing F]
    (inputs : CalculationInputs F) (l : List (YearlyBalance F))
    (hok : calculateGrowth inputs = .ok l) :
    ∀ s ∈ l, s.balance = s.contributions + s.growth := by
  cases hs : sortPeriods inputs.periods with
  | nil =>
      rw [calculateGrowth_error_of_nil hs] at hok
      exact absurd hok (by simp)
  | cons p0 rest =>
      rw [calculateGrowth_ok hs] at hok
      injection hok with hok
      rcases runMonths_snaps (fun x => x.balance = x.contributions + x.growth)
          (engineCtx inputs p0 rest) _
          (fun month s _ _ => by simp [yearSnapshot]) _ with ⟨t, hybs, hP⟩
      intro s hsl
      rw [← hok, hybs] at hsl
      rcases List.mem_append.1 hsl with hsl | hsl
      · simp only [engineInit, List.mem_singleton] at hsl
        rw [hsl]
        simp [initialSnapshot]
      · exact hP s hsl

/-- Claim C8: with inflation rate 0, `realBalance` equals `balance` at
every snapshot. -/
theorem realBalance_eq_balance_of_zero_inflation [FloorRing F]
    (inputs : CalculationInputs F) (l : List (YearlyBalance F))
    (hinfl : inputs.inflationRate = 0)
    (hok : calculateGrowth inputs = .ok l) :
    ∀ s ∈ l, s.realBalance = s.balance := by
  cases hs : sortPeriods inputs.periods with
  | nil =>
      rw [calculateGrowth_error_of_nil hs] at hok
      exact absurd hok (by simp)
  | cons p0 rest =>
      rw [calculateGrowth_ok hs] at hok
      injection hok with hok
      rcases runMonths_snaps (fun x => x.realBalance = x.balance)
          (engineCtx inputs p0 rest) _
          (fun month s _ _ => by simp [yearSnapshot, engineCtx, hinfl]) _ with ⟨t, hybs, hP⟩
      intro s hsl
      rw [← hok, hybs] at hsl
      rcases List.mem_append.1 hsl with hsl | hsl
      · simp only [engineInit, List.mem_singleton] at hsl
        rw [hsl]
        simp [initialSnapshot]
      · exact hP s hsl

/-- Claim C9: a degenerate regime (`startAge = endAge`) never causes a
failure and is never selected by the active-regime lookup, at any age. -/
theorem degenerate_period_never_selected [FloorRing F]
    (inputs : CalculationInputs F) (p : Period F)
    (hne : inputs.periods ≠ [])
    (hp : p ∈ inputs.periods) (hdeg : p.startAge = p.endAge) :
    (∃ l, calculateGrowth inputs = .ok l) ∧
      ∀ age : F, getPeriodForAge (sortPeriods inputs.periods) age ≠ some p := by
  constructor
  · cases hs : sortPeriods inputs.periods with
    | nil => exact absurd (sortPeriods_eq_nil_iff.1 hs) hne
    | cons p0 rest => exact ⟨_, calculateGrowth_ok hs⟩
  · intro age h
    have hc := getPeriodForAge_contains h
    rw [periodContains, hdeg] at hc
    exact absurd (lt_of_le_of_lt hc.1 hc.2) (lt_irrefl p.endAge)

/-- Claim C4: when the horizon age is at or before the minimum start age,
the engine produces exactly the initial snapshot and steps no month. -/
theorem single_snapshot_of_nonpositive_span [FloorRing F]
    (inputs : CalculationInputs F)
    (hne : inputs.periods ≠ [])
    (hspan : ∀ p ∈ inputs.periods, inputs.endAge - p.startAge ≤ 0) :
    ∃ s : YearlyBalance F, calculateGrowth inputs = .ok [s] ∧
      s.balance = inputs.initialAmount ∧ s.contributions = inputs.initialAmount ∧
      s.growth = 0 ∧ s.taxPaid = 0 ∧
      ∃ p ∈ inputs.periods, s.age = p.startAge ∧ ∀ q ∈ inputs.periods, s.age ≤ q.startAge := by
  cases hs : sortPeriods inputs.periods with
  | nil => exact absurd (sortPeriods_eq_nil_iff.1 hs) hne
  | cons p0 rest =>
      have hok := calculateGrowth_ok hs
      rcases sortPeriods_head_min hs with ⟨hmem, hmin⟩
      have hm : numMonths (inputs.endAge - p0.startAge) = 0 := by
        rw [numMonths]
        have h2 : (inputs.endAge - p0.startAge) * 12 ≤ 0 := by
          have := mul_le_mul_of_nonneg_right (hspan p0 hmem) (by norm_num : (0 : F) ≤ 12)
          linarith
        exact Int.toNat_of_nonpos (Int.floor_nonpos h2)
      rw [hm] at hok
      refine ⟨initialSnapshot (engineCtx inputs p0 rest) inputs.initialAmount, ?_, ?_, ?_, ?_,
        ?_, p0, hmem, ?_, ?_⟩
      · rw [hok]; rfl
      · rfl
      · rfl
      · rfl
      · rfl
      · rfl
      · intro q hq
        exact hmin q hq

/-- Claim C3: the active regime is the first element, in the
ascending-`startAge` sorted copy of the input list, whose half-open
interval contains the age; when no regime contains the age the month step
only applies the global return and advances inflation, leaving
contributions untouched. -/
theorem active_regime_first_match (l : List (Period F)) (age : F) :
    (sortPeriods l).Pairwise (fun a b => a.startAge ≤ b.startAge)
    ∧ List.Perm (sortPeriods l) l
    ∧ (∀ q : Period F, getPeriodForAge (sortPeriods l) age = some q ↔
        ∃ l₁ l₂, sortPeriods l = l₁ ++ q :: l₂ ∧ periodContains q age ∧
          ∀ p ∈ l₁, ¬ periodContains p age)
    ∧ (getPeriodForAge (sortPeriods l) age = none ↔ ∀ p ∈ l, ¬ periodContains p age)
    ∧ (∀ (ctx : EngineCtx F) (month : ℕ) (s : EngineState F),
        getPeriodForAge ctx.sortedPeriods (monthAge ctx month) = none →
          applyMonth ctx month s =
            { s with balance := s.balance * (1 + ctx.annualReturn / 100 / 12)
                     inflationMultiplier := s.inflationMultiplier * ctx.monthlyInflationFactor }) := by
  refine ⟨sortPeriods_pairwise l, sortPeriods_perm l,
    fun q => getPeriodForAge_eq_some_iff, ?_, ?_⟩
  · rw [getPeriodForAge_eq_none_iff]
    constructor
    · intro h p hp
      exact h p (mem_sortPeriods.2 hp)
    · intro h p hp
      exact h p (mem_sortPeriods.1 hp)
  · intro ctx month s hnone
    simp [applyMonth, hnone]

/-- Claim C10: among regimes tied on `startAge`, the one declared earliest
in the caller-supplied list wins: the sort is stable on the `startAge`
key, the selected regime contains the age and minimises `startAge` over
all containing regimes, and it is the first containing regime of the
original list among those sharing its `startAge`. -/
theorem tied_start_age_first_declared_wins (l : List (Period F)) (age : F) (q : Period F)
    (h : getPeriodForAge (sortPeriods l) age = some q) :
    periodContains q age
    ∧ (∀ p ∈ l, periodContains p age → q.startAge ≤ p.startAge)
    ∧ (l.filter (fun p => decide (p.startAge = q.startAge))).find?
        (fun p => decide (periodContains p age)) = some q
    ∧ ∀ k : F, (sortPeriods l).filter (fun p => decide (p.startAge = k)) =
        l.filter (fun p => decide (p.startAge = k)) := by
  refine ⟨getPeriodForAge_contains h, ?_, ?_, fun k => sortPeriods_filter_eq l k⟩
  · intro p hp hc
    exact getPeriodForAge_min (sortPeriods_pairwise l) h p (mem_sortPeriods.2 hp) hc
  · have hfind : (sortPeriods l).find? (fun p => decide (periodContains p age)) = some q := by
      rw [← getPeriodForAge_eq_find?]
      exact h
    have hres := find?_filter_of_find? (fun p => decide (periodContains p age))
      (fun p => decide (p.startAge = q.startAge)) _ q hfind (by simp)
    rw [sortPeriods_filter_eq] at hres
    exact hres

theorem stepMonth_eq (ctx : EngineCtx F) (month : ℕ) (s : EngineState F) :
    stepMonth ctx month s =
      if month % 12 = 0 then emitYear ctx month (applyMonth ctx month s)
      else applyMonth ctx month s := rfl

theorem yearSnapshot_balance (ctx : EngineCtx F) (month : ℕ) (s : EngineState F) :
    (yearSnapshot ctx month s).balance = (taxedBalance ctx s).1 := rfl

theorem yearSnapshot_taxPaid (ctx : EngineCtx F) (month : ℕ) (s : EngineState F) :
    (yearSnapshot ctx month s).taxPaid = (taxedBalance ctx s).2 := rfl

theorem emitYear_cumulativeTaxPaid (ctx : EngineCtx F) (month : ℕ) (s : EngineState F) :
    (emitYear ctx month s).cumulativeTaxPaid = (taxedBalance ctx s).2 := rfl

-- The arithmetic operations of `Rat` are irreducible upstream, which
-- blocks `decide`-style evaluation of the engine at concrete rational
-- inputs; restore the default reducibility locally.
attribute [local semireducible] Rat.add Rat.mul Rat.sub Rat.inv Rat.ofScientific

set_option maxRecDepth 10000

instance {ε α : Type} [DecidableEq ε] [DecidableEq α] : DecidableEq (Except ε α) := fun x y =>
  match x, y with
  | .ok a, .ok b =>
      if h : a = b then .isTrue (by rw [h]) else .isFalse (fun hc => h (Except.ok.inj hc))
  | .error e, .error f =>
      if h : e = f then .isTrue (by rw [h]) else .isFalse (fun hc => h (Except.error.inj hc))
  | .ok _, .error _ => .isFalse (fun hc => Except.noConfusion hc)
  | .error _, .ok _ => .isFalse (fun hc => Except.noConfusion hc)

/-- A depleted portfolio: one year at inflation 100% with a balance stuck
at -100.  Deflating a negative balance moves it towards zero, so the
snapshot after the first has `realBalance = -50 > balance = -100`. -/
def negBalanceInput : CalculationInputs ℚ :=
  ⟨-100, [⟨30, 31, 0, 0, none⟩], 0, 31, 100, none, 1⟩

/-- Claim C7 (counterexample): it is not true that positive inflation
makes `realBalance < balance` at every snapshot after the first; a
negative balance reverses the inequality. -/
theorem realBalance_lt_balance_counterexample :
    ¬ (∀ (inputs : CalculationInputs ℚ) (l : List (YearlyBalance ℚ)),
        inputs.periods ≠ [] → 0 < inputs.inflationRate →
        calculateGrowth inputs = .ok l →
        ∀ s ∈ l.tail, s.realBalance < s.balance) := by
  intro hclaim
  have hok : calculateGrowth negBalanceInput =
      .ok [⟨30, -100, -100, -100, 0, 0, 0⟩, ⟨31, -100, -50, -100, 0, 0, 0⟩] := by decide
  have hlt := hclaim negBalanceInput _ (by decide) (by decide) hok
    ⟨31, -100, -50, -100, 0, 0, 0⟩ (by decide)
  norm_num at hlt

/-- Claim C7 (amended): with inflation rate strictly positive, every
snapshot after the first whose balance is positive has
`realBalance < balance`. -/
theorem realBalance_lt_balance_of_pos_inflation [FloorRing F]
    (inputs : CalculationInputs F) (l : List (YearlyBalance F))
    (hinfl : 0 < inputs.inflationRate)
    (hok : calculateGrowth inputs = .ok l) :
    ∀ s ∈ l.tail, 0 < s.balance → s.realBalance < s.balance := by
  cases hs : sortPeriods inputs.periods with
  | nil =>
      rw [calculateGrowth_error_of_nil hs] at hok
      exact absurd hok (by simp)
  | cons p0 rest =>
      rw [calculateGrowth_ok hs] at hok
      injection hok with hok
      rcases runMonths_snaps
          (fun x => ∃ k, 1 ≤ k ∧
            x.realBalance = x.balance / (1 + inputs.inflationRate / 100) ^ k)
          (engineCtx inputs p0 rest) _
          (fun month s h1 h12 =>
            ⟨month / 12, by omega, by simp [yearSnapshot, engineCtx]⟩) _ with ⟨t, hybs, hP⟩
      intro s hsl hbal
      have hlt : l = initialSnapshot (engineCtx inputs p0 rest) inputs.initialAmount :: t := by
        rw [← hok, hybs]
        rfl
      rw [hlt, List.tail_cons] at hsl
      rcases hP s hsl with ⟨k, hk1, hrb⟩
      rw [hrb]
      have h1 : (1 : F) < 1 + inputs.inflationRate / 100 := by
        have := div_pos hinfl (by norm_num : (0 : F) < 100)
        linarith
      have h2 : (1 : F) < (1 + inputs.inflationRate / 100) ^ k :=
        one_lt_pow₀ h1 (by omega)
      exact div_lt_self hbal h2

/-- Witness for the amended claim C7 at a concrete input: 100% inflation,
positive balance, so the year-1 snapshot has `realBalance 50 < balance
100`. -/
theorem realBalance_lt_balance_witness :
    (0 : ℚ) <
        (⟨100, [⟨30, 31, 0, 0, none⟩], 0, 31, 100, none, 1⟩ :
          CalculationInputs ℚ).inflationRate
    ∧ ∀ s ∈ ([⟨30, 100, 100, 100, 0, 0, 0⟩, ⟨31, 100, 50, 100, 0, 0, 0⟩] :
        List (YearlyBalance ℚ)).tail, 0 < s.balance → s.realBalance < s.balance :=
  ⟨by decide,
    realBalance_lt_balance_of_pos_inflation
      ⟨100, [⟨30, 31, 0, 0, none⟩], 0, 31, 100, none, 1⟩
      [⟨30, 100, 100, 100, 0, 0, 0⟩, ⟨31, 100, 50, 100, 0, 0, 0⟩]
      (by decide) (by decide)⟩

/-- A depleted portfolio under the ISK tax: the yearly tax of a negative
balance is negative, so the cumulative tax total decreases. -/
def negBalanceTaxInput : CalculationInputs ℚ :=
  ⟨-1000, [⟨30, 31, 0, 0, none⟩], 0, 31, 0, some ⟨true, 5/2⟩, 1⟩

/-- Claim C6 (counterexample): with the tax enabled at a fixed borrowing
rate, the cumulative `taxPaid` is not monotone for every input: at a
negative balance it strictly decreases. -/
theorem taxPaid_monotone_counterexample :
    ¬ (∀ (inputs : CalculationInputs ℚ) (l : List (YearlyBalance ℚ)) (rate : ℚ),
        inputs.iskTax = some ⟨true, rate⟩ →
        inputs.periods ≠ [] →
        calculateGrowth inputs = .ok l →
        l.Chain' (fun a b => a.taxPaid ≤ b.taxPaid)) := by
  intro hclaim
  have hok : calculateGrowth negBalanceTaxInput =
      .ok [⟨30, -1000, -1000, -1000, 0, 0, 0⟩,
           ⟨31, -1985/2, -1985/2, -1000, 15/2, 0, -15/2⟩] := by decide
  have hch := hclaim negBalanceTaxInput _ (5/2) (by decide) (by decide) hok
  rw [List.chain'_cons] at hch
  have : ((0 : ℚ) ≤ -15/2) := by
    simpa using hch.1
  norm_num at this

/-- Claim C6 (amended): with the tax enabled at a borrowing rate `r` with
`0 ≤ r < 1000/3`, the cumulative `taxPaid` is monotonically non-decreasing
along the snapshot sequence provided every snapshot's balance is
non-negative. -/
theorem taxPaid_monotone_of_nonneg_balances [FloorRing F]
    (inputs : CalculationInputs F) (l : List (YearlyBalance F)) (rate : F)
    (htax : inputs.iskTax = some ⟨true, rate⟩)
    (hr0 : 0 ≤ rate) (hr1 : rate < 1000 / 3)
    (hok : calculateGrowth inputs = .ok l)
    (hbal : ∀ x ∈ l, 0 ≤ x.balance) :
    l.Chain' (fun a b => a.taxPaid ≤ b.taxPaid) := by
  cases hs : sortPeriods inputs.periods with
  | nil =>
      rw [calculateGrowth_error_of_nil hs] at hok
      exact absurd hok (by simp)
  | cons p0 rest =>
      rw [calculateGrowth_ok hs] at hok
      injection hok with hok
      set ctx := engineCtx inputs p0 rest with hctx
      set s0 := engineInit ctx inputs.initialAmount with hs0def
      set N := numMonths (inputs.endAge - p0.startAge) with hNdef
      have hct : ctx.iskTax = some ⟨true, rate⟩ := htax
      have hcnn : 0 ≤ (rate / 100) * (3 / 10) := by positivity
      have hc1 : (rate / 100) * (3 / 10) < 1 := by
        have hq : (rate / 100) * (3 / 10) = rate * (3 / 1000) := by ring
        rw [hq]
        linarith
      have key : ∀ m, m ≤ N →
          (runMonths ctx s0 m).yearlyBalances.Chain' (fun a b => a.taxPaid ≤ b.taxPaid) ∧
          ∃ e, (runMonths ctx s0 m).yearlyBalances.getLast? = some e ∧
            e.taxPaid = (runMonths ctx s0 m).cumulativeTaxPaid := by
        intro m
        induction m with
        | zero =>
            intro _
            refine ⟨?_, initialSnapshot ctx inputs.initialAmount, ?_, ?_⟩
            · exact List.chain'_singleton _
            · rfl
            · rfl
        | succ m ih =>
            intro hm1
            obtain ⟨hch, e, hlast, hetax⟩ := ih (Nat.le_of_succ_le hm1)
            by_cases h12 : (m + 1) % 12 = 0
            · have hstep : runMonths ctx s0 (m + 1) =
                  emitYear ctx (m + 1) (applyMonth ctx (m + 1) (runMonths ctx s0 m)) := by
                rw [runMonths, stepMonth_eq, if_pos h12]
              have htb : taxedBalance ctx (applyMonth ctx (m + 1) (runMonths ctx s0 m)) =
                  ((applyMonth ctx (m + 1) (runMonths ctx s0 m)).balance -
                     (applyMonth ctx (m + 1) (runMonths ctx s0 m)).balance *
                       (rate / 100) * (3 / 10),
                   (applyMonth ctx (m + 1) (runMonths ctx s0 m)).cumulativeTaxPaid +
                     (applyMonth ctx (m + 1) (runMonths ctx s0 m)).balance *
                       (rate / 100) * (3 / 10)) := by
                rw [taxedBalance, hct]
                simp
              have hsnapmem : yearSnapshot ctx (m + 1)
                  (applyMonth ctx (m + 1) (runMonths ctx s0 m)) ∈ l := by
                rw [← hok]
                refine runMonths_mem_mono ctx s0 hm1 ?_
                rw [hstep, emitYear_yearlyBalances]
                exact List.mem_append_right _ (List.mem_singleton.2 rfl)
              have hb : 0 ≤ (applyMonth ctx (m + 1) (runMonths ctx s0 m)).balance := by
                have hnn := hbal _ hsnapmem
                rw [yearSnapshot_balance, htb] at hnn
                by_contra hneg
                push_neg at hneg
                nlinarith
              have hinc : 0 ≤ (applyMonth ctx (m + 1) (runMonths ctx s0 m)).balance *
                  (rate / 100) * (3 / 10) := by
                have := mul_nonneg hb hcnn
                linarith [this, mul_assoc (applyMonth ctx (m + 1) (runMonths ctx s0 m)).balance
                  (rate / 100) (3 / 10)]
              constructor
              · rw [hstep, emitYear_yearlyBalances, applyMonth_yearlyBalances]
                refine List.chain'_append.2 ⟨hch, List.chain'_singleton _, ?_⟩
                intro x hx y hy
                rw [hlast, Option.mem_some_iff] at hx
                simp only [List.head?_cons, Option.mem_some_iff] at hy
                rw [← hx, ← hy, yearSnapshot_taxPaid, htb, hetax,
                  applyMonth_cumulativeTaxPaid]
                linarith
              · refine ⟨yearSnapshot ctx (m + 1) (applyMonth ctx (m + 1) (runMonths ctx s0 m)),
                  ?_, ?_⟩
                · rw [hstep, emitYear_yearlyBalances, applyMonth_yearlyBalances]
                  exact List.getLast?_concat _
                · rw [hstep, yearSnapshot_taxPaid, emitYear_cumulativeTaxPaid]
            · have hstep : runMonths ctx s0 (m + 1) =
                  applyMonth ctx (m + 1) (runMonths ctx s0 m) := by
                rw [runMonths, stepMonth_eq, if_neg h12]
              rw [hstep, applyMonth_yearlyBalances, applyMonth_cumulativeTaxPaid]
              exact ⟨hch, e, hlast, hetax⟩
      have hfin := key N (le_refl N)
      rw [hok] at hfin
      exact hfin.1

/-- Witness for the amended claim C6 at a concrete input: a positive
balance taxed at 10% keeps `taxPaid` non-decreasing. -/
theorem taxPaid_monotone_witness :
    (0 : ℚ) ≤ 10 ∧ (10 : ℚ) < 1000 / 3 ∧
      ([⟨30, 100, 100, 100, 0, 0, 0⟩, ⟨31, 97, 97, 100, -3, 0, 3⟩] :
        List (YearlyBalance ℚ)).Chain' (fun a b => a.taxPaid ≤ b.taxPaid) :=
  ⟨by norm_num, by norm_num,
    taxPaid_monotone_of_nonneg_balances
      ⟨100, [⟨30, 31, 0, 0, none⟩], 0, 31, 0, some ⟨true, 10⟩, 1⟩
      [⟨30, 100, 100, 100, 0, 0, 0⟩, ⟨31, 97, 97, 100, -3, 0, 3⟩] 10
      (by decide) (by norm_num) (by norm_num) (by decide) (by decide)⟩

/-! ### Correspondence between the engine and the spec reference -/

theorem foldlMin_le_acc (ps : List (Period F)) (a : F) :
    ps.foldl (fun m q => min m q.startAge) a ≤ a := by
  induction ps generalizing a with
  | nil => exact le_refl a
  | cons q qs ih =>
      exact le_trans (ih (min a q.startAge)) (min_le_left _ _)

theorem foldlMin_le_mem (ps : List (Period F)) (a : F) {q : Period F} (hq : q ∈ ps) :
    ps.foldl (fun m r => min m r.startAge) a ≤ q.startAge := by
  induction ps generalizing a with
  | nil => exact absurd hq (List.not_mem_nil q)
  | cons r rs ih =>
      rcases List.mem_cons.1 hq with rfl | hq
      · exact le_trans (foldlMin_le_acc rs _) (min_le_right _ _)
      · exact ih _ hq

theorem foldlMin_eq_acc_or_mem (ps : List (Period F)) (a : F) :
    ps.foldl (fun m r => min m r.startAge) a = a ∨
      ∃ q ∈ ps, ps.foldl (fun m r => min m r.startAge) a = q.startAge := by
  induction ps generalizing a with
  | nil => exact Or.inl rfl
  | cons r rs ih =>
      rcases ih (min a r.startAge) with h | ⟨q, hq, h⟩
      · rcases min_choice a r.startAge with hm | hm
        · exact Or.inl (by rw [List.foldl_cons, h, hm])
        · exact Or.inr ⟨r, List.mem_cons_self r rs, by rw [List.foldl_cons, h, hm]⟩
      · exact Or.inr ⟨q, List.mem_cons_of_mem r hq, by rw [List.foldl_cons, h]⟩

/-- The spec's "minimum `startAge` among regimes" is the head of the
engine's sorted copy. -/
theorem specStartAge_eq_sorted_head {inputs : CalculationInputs F}
    {p0 : Period F} {rest : List (Period F)}
    (hs : sortPeriods inputs.periods = p0 :: rest) :
    specStartAge inputs.periods = some p0.startAge := by
  rcases sortPeriods_head_min hs with ⟨hmem, hmin⟩
  cases hl : inputs.periods with
  | nil => rw [hl] at hs; exact absurd hs (by simp [sortPeriods])
  | cons h t =>
      rw [specStartAge]
      congr 1
      rw [hl] at hmem hmin
      apply le_antisymm
      · rcases List.mem_cons.1 hmem with rfl | hmem
        · exact foldlMin_le_acc t _
        · exact foldlMin_le_mem t _ hmem
      · rcases foldlMin_eq_acc_or_mem t h.startAge with hv | ⟨q, hq, hv⟩
        · rw [hv]; exact hmin h (List.mem_cons_self h t)
        · rw [hv]; exact hmin q (List.mem_cons_of_mem h hq)

theorem specActiveRegime_eq_engine {inputs : CalculationInputs F}
    {p0 : Period F} {rest : List (Period F)}
    (hs : sortPeriods inputs.periods = p0 :: rest) (age : F) :
    specActiveRegime inputs.periods age =
      getPeriodForAge (engineCtx inputs p0 rest).sortedPeriods age := by
  rw [specActiveRegime, ← getPeriodForAge_eq_find?, hs]
  rfl

/-- The contribution/spending/growth part of a month, restated through the
spec-side selectors. -/
theorem applyMonth_eq_spec {inputs : CalculationInputs F} {ctx : EngineCtx F}
    (hsp : ctx.sortedPeriods = sortPeriods inputs.periods)
    (har : ctx.annualReturn = inputs.annualReturn)
    (hmif : ctx.monthlyInflationFactor = inputs.monthlyInflationFactor)
    (month : ℕ) (s : EngineState F) :
    applyMonth ctx month s =
      { s with
        balance := s.balance *
              (1 + specEffectiveReturn
                (specActiveRegime inputs.periods (monthAge ctx month))
                inputs.annualReturn / 100 / 12)
            + specContribution (specActiveRegime inputs.periods (monthAge ctx month))
            - specSpending (specActiveRegime inputs.periods (monthAge ctx month)) *
              (s.inflationMultiplier * inputs.monthlyInflationFactor)
        inflationMultiplier := s.inflationMultiplier * inputs.monthlyInflationFactor
        totalContributions := s.totalContributions +
          specContribution (specActiveRegime inputs.periods (monthAge ctx month)) } := by
  have heq : getPeriodForAge ctx.sortedPeriods (monthAge ctx month) =
      specActiveRegime inputs.periods (monthAge ctx month) := by
    rw [hsp, specActiveRegime, getPeriodForAge_eq_find?]
  cases hr : specActiveRegime inputs.periods (monthAge ctx month) with
  | none =>
      rw [hr] at heq
      simp [applyMonth, heq, har, hmif, specEffectiveReturn, specContribution, specSpending]
  | some p =>
      rw [hr] at heq
      cases hpa : p.annualReturn with
      | none =>
          simp [applyMonth, heq, har, hmif, specEffectiveReturn, specContribution,
            specSpending, hpa]
      | some o =>
          simp [applyMonth, heq, har, hmif, specEffectiveReturn, specContribution,
            specSpending, hpa]

/-- The year-boundary tax, restated through the spec-side tax rate. -/
theorem taxedBalance_eq_spec {inputs : CalculationInputs F} {ctx : EngineCtx F}
    (hisk : ctx.iskTax = inputs.iskTax) (s : EngineState F) :
    taxedBalance ctx s =
      (s.balance - s.balance * (specTaxRate inputs.iskTax / 100) * (3 / 10),
       s.cumulativeTaxPaid + s.balance * (specTaxRate inputs.iskTax / 100) * (3 / 10)) := by
  rw [taxedBalance, hisk]
  cases ht : inputs.iskTax with
  | none => simp [specTaxRate]
  | some t =>
      cases hte : t.enabled with
      | false => simp [specTaxRate, hte]
      | true => simp [specTaxRate, hte]

/-- The engine's initial snapshot is the spec snapshot at month 0. -/
theorem initialSnapshot_eq_spec {inputs : CalculationInputs F} {ctx : EngineCtx F} {a0 : F}
    (hsp : ctx.sortedPeriods = sortPeriods inputs.periods)
    (hsa : ctx.startAge = a0) :
    initialSnapshot ctx inputs.initialAmount = specSnapshotAt inputs a0 0 := by
  have heq : getPeriodForAge ctx.sortedPeriods a0 =
      specActiveRegime inputs.periods a0 := by
    rw [hsp, specActiveRegime, getPeriodForAge_eq_find?]
  cases hr : specActiveRegime inputs.periods a0 with
  | none =>
      rw [hr] at heq
      simp [initialSnapshot, specSnapshotAt, specStateAt, heq, hr, hsa, specSpending]
  | some p =>
      rw [hr] at heq
      simp [initialSnapshot, specSnapshotAt, specStateAt, heq, hr, hsa, specSpending]

theorem engineCtx_startAge (inputs : CalculationInputs F) (p0 : Period F)
    (rest : List (Period F)) : (engineCtx inputs p0 rest).startAge = p0.startAge := rfl

theorem engineCtx_sortedPeriods (inputs : CalculationInputs F) (p0 : Period F)
    (rest : List (Period F)) :
    (engineCtx inputs p0 rest).sortedPeriods = p0 :: rest := rfl

theorem engineCtx_inflation (inputs : CalculationInputs F) (p0 : Period F)
    (rest : List (Period F)) :
    (engineCtx inputs p0 rest).inflation = inputs.inflationRate / 100 := rfl

/-- The snapshot the engine pushes at a year boundary is the spec snapshot
of that month, whenever the taxed state agrees with the spec state. -/
theorem yearSnapshot_eq_specSnapshot {inputs : CalculationInputs F}
    {p0 : Period F} {rest : List (Period F)}
    (hs : sortPeriods inputs.periods = p0 :: rest)
    (month : ℕ) (s : EngineState F)
    (hb : (taxedBalance (engineCtx inputs p0 rest) s).1 =
      (specStateAt inputs p0.startAge month).balance)
    (hk : (taxedBalance (engineCtx inputs p0 rest) s).2 =
      (specStateAt inputs p0.startAge month).cumulativeTax)
    (hc : s.totalContributions = (specStateAt inputs p0.startAge month).contributions)
    (hm : s.inflationMultiplier =
      (specStateAt inputs p0.startAge month).inflationMultiplier) :
    yearSnapshot (engineCtx inputs p0 rest) month s =
      specSnapshotAt inputs p0.startAge month := by
  have hgp : getPeriodForAge (p0 :: rest) (p0.startAge + (month : F) / 12) =
      specActiveRegime inputs.periods (p0.startAge + (month : F) / 12) :=
    (specActiveRegime_eq_engine hs (p0.startAge + (month : F) / 12)).symm
  cases hcp : specActiveRegime inputs.periods (p0.startAge + (month : F) / 12) with
  | none =>
      rw [hcp] at hgp
      simp [yearSnapshot, specSnapshotAt, engineCtx_startAge, engineCtx_sortedPeriods,
        engineCtx_inflation, hgp, hcp, hb, hk, hc, hm, specSpending]
  | some p =>
      rw [hcp] at hgp
      simp [yearSnapshot, specSnapshotAt, engineCtx_startAge, engineCtx_sortedPeriods,
        engineCtx_inflation, hgp, hcp, hb, hk, hc, hm, specSpending]

/-- The year-boundary snapshot, restated entirely through the spec-side
selectors, for an arbitrary pre-tax state. -/
theorem yearSnapshot_eq_spec_form {inputs : CalculationInputs F}
    {p0 : Period F} {rest : List (Period F)}
    (hs : sortPeriods inputs.periods = p0 :: rest)
    (month : ℕ) (s : EngineState F) :
    yearSnapshot (engineCtx inputs p0 rest) month s =
      ⟨p0.startAge + (month : F) / 12,
       s.balance - s.balance * (specTaxRate inputs.iskTax / 100) * (3 / 10),
       (s.balance - s.balance * (specTaxRate inputs.iskTax / 100) * (3 / 10)) /
         (1 + inputs.inflationRate / 100) ^ (month / 12),
       s.totalContributions,
       s.balance - s.balance * (specTaxRate inputs.iskTax / 100) * (3 / 10) -
         s.totalContributions,
       (if 0 < s.balance - s.balance * (specTaxRate inputs.iskTax / 100) * (3 / 10) then
          specSpending (specActiveRegime inputs.periods (p0.startAge + (month : F) / 12)) *
              12 * s.inflationMultiplier /
            (s.balance - s.balance * (specTaxRate inputs.iskTax / 100) * (3 / 10)) * 100
        else 0),
       s.cumulativeTaxPaid + s.balance * (specTaxRate inputs.iskTax / 100) * (3 / 10)⟩ := by
  have htb := @taxedBalance_eq_spec F _ inputs (engineCtx inputs p0 rest) rfl s
  have hgp : getPeriodForAge (p0 :: rest) (p0.startAge + (month : F) / 12) =
      specActiveRegime inputs.periods (p0.startAge + (month : F) / 12) :=
    (specActiveRegime_eq_engine hs (p0.startAge + (month : F) / 12)).symm
  cases hcp : specActiveRegime inputs.periods (p0.startAge + (month : F) / 12) with
  | none =>
      rw [hcp] at hgp
      simp [yearSnapshot, engineCtx_startAge, engineCtx_sortedPeriods, engineCtx_inflation,
        htb, hgp, hcp, specSpending]
  | some p =>
      rw [hcp] at hgp
      simp [yearSnapshot, engineCtx_startAge, engineCtx_sortedPeriods, engineCtx_inflation,
        htb, hgp, hcp, specSpending]

/-- One engine month, applied to a state holding the spec values after `m`
months, yields the spec values after `m + 1` months and appends exactly
the spec snapshot on year boundaries. -/
theorem stepMonth_eq_specStep {inputs : CalculationInputs F}
    {p0 : Period F} {rest : List (Period F)}
    (hs : sortPeriods inputs.periods = p0 :: rest)
    (m : ℕ) (L : List (YearlyBalance F)) :
    stepMonth (engineCtx inputs p0 rest) (m + 1)
        ⟨(specStateAt inputs p0.startAge m).balance,
         (specStateAt inputs p0.startAge m).inflationMultiplier,
         (specStateAt inputs p0.startAge m).cumulativeTax,
         (specStateAt inputs p0.startAge m).contributions, L⟩ =
      ⟨(specStateAt inputs p0.startAge (m + 1)).balance,
       (specStateAt inputs p0.startAge (m + 1)).inflationMultiplier,
       (specStateAt inputs p0.startAge (m + 1)).cumulativeTax,
       (specStateAt inputs p0.startAge (m + 1)).contributions,
       L ++ (if (m + 1) % 12 = 0 then [specSnapshotAt inputs p0.startAge (m + 1)]
             else [])⟩ := by
  have hsp : (engineCtx inputs p0 rest).sortedPeriods = sortPeriods inputs.periods := by
    rw [engineCtx_sortedPeriods, hs]
  have hma : monthAge (engineCtx inputs p0 rest) (m + 1) =
      p0.startAge + (((m + 1 : ℕ) : F) - 1) / 12 := rfl
  rw [stepMonth_eq, applyMonth_eq_spec hsp rfl rfl, hma]
  by_cases h12 : (m + 1) % 12 = 0
  · rw [if_pos h12, if_pos h12]
    simp only [emitYear, yearSnapshot_eq_spec_form hs,
      @taxedBalance_eq_spec F _ inputs (engineCtx inputs p0 rest) rfl,
      specStateAt, specStep, specSnapshotAt]
    rw [if_pos h12]
  · rw [if_neg h12, if_neg h12]
    simp only [specStateAt, specStep, List.append_nil]
    rw [if_neg h12]

/-- Monthly-state correspondence between the engine loop and the spec
recurrence, including the accumulated snapshot list. -/
theorem runMonths_eq_spec {inputs : CalculationInputs F}
    {p0 : Period F} {rest : List (Period F)}
    (hs : sortPeriods inputs.periods = p0 :: rest) (m : ℕ) :
    runMonths (engineCtx inputs p0 rest)
        (engineInit (engineCtx inputs p0 rest) inputs.initialAmount) m =
      ⟨(specStateAt inputs p0.startAge m).balance,
       (specStateAt inputs p0.startAge m).inflationMultiplier,
       (specStateAt inputs p0.startAge m).cumulativeTax,
       (specStateAt inputs p0.startAge m).contributions,
       (List.range (m / 12 + 1)).map
         (fun y => specSnapshotAt inputs p0.startAge (12 * y))⟩ := by
  induction m with
  | zero =>
      simp only [runMonths, specStateAt, Nat.zero_div, Nat.zero_add, List.range_succ,
        List.range_zero, List.nil_append, List.map_cons, List.map_nil, Nat.mul_zero,
        engineInit]
      rw [@initialSnapshot_eq_spec F _ inputs (engineCtx inputs p0 rest) p0.startAge
        (by rw [engineCtx_sortedPeriods, hs]) rfl]
  | succ m ih =>
      rw [runMonths, ih, stepMonth_eq_specStep hs]
      by_cases h12 : (m + 1) % 12 = 0
      · rw [if_pos h12]
        have hdiv : (m + 1) / 12 = m / 12 + 1 := by omega
        have hmul : 12 * (m / 12 + 1) = m + 1 := by omega
        simp only [hdiv, List.range_succ, List.map_append, List.map_cons, List.map_nil,
          hmul]
      · rw [if_neg h12, List.append_nil]
        have hdiv : (m + 1) / 12 = m / 12 := by omega
        rw [hdiv]

/-- Claim C1: for every input with a non-empty regime list, the snapshot
trajectory returned by `calculateGrowth` equals direct recomputation by
the spec's monthly-step reference definition: per month, growth before
contribution and inflation-scaled spending, the inflation multiplier
advanced before scaling, and at each twelfth month the tax subtracted
after that month's growth but before the snapshot. -/
theorem calculateGrowth_eq_specTrajectory [FloorRing F]
    (inputs : CalculationInputs F) (hne : inputs.periods ≠ []) :
    calculateGrowth inputs = .ok (specTrajectory inputs) := by
  cases hs : sortPeriods inputs.periods with
  | nil => exact absurd (sortPeriods_eq_nil_iff.1 hs) hne
  | cons p0 rest =>
      rw [calculateGrowth_ok hs]
      simp only [specTrajectory]
      rw [specStartAge_eq_sorted_head hs, runMonths_eq_spec hs]

/-! ### Concrete witnesses -/

/-- Witness for C1: a regime with override return, inflation and tax. -/
theorem calculateGrowth_eq_specTrajectory_witness :
    (⟨1000, [⟨30, 31, 5, 2, some 6⟩], 7, 31, 3, some ⟨true, 2⟩, 1⟩ :
        CalculationInputs ℚ).periods ≠ [] ∧
      calculateGrowth
          (⟨1000, [⟨30, 31, 5, 2, some 6⟩], 7, 31, 3, some ⟨true, 2⟩, 1⟩ :
            CalculationInputs ℚ) =
        .ok (specTrajectory
          (⟨1000, [⟨30, 31, 5, 2, some 6⟩], 7, 31, 3, some ⟨true, 2⟩, 1⟩ :
            CalculationInputs ℚ)) :=
  ⟨by decide,
    calculateGrowth_eq_specTrajectory
      ⟨1000, [⟨30, 31, 5, 2, some 6⟩], 7, 31, 3, some ⟨true, 2⟩, 1⟩ (by decide)⟩

/-- Witness for C2: a singleton regime list yields a result. -/
theorem calculateGrowth_error_iff_empty_witness :
    ∃ l, calculateGrowth
        (⟨50, [⟨40, 41, 1, 0, none⟩], 5, 41, 0, none, 1⟩ : CalculationInputs ℚ) = .ok l :=
  (calculateGrowth_error_iff_empty
    (⟨50, [⟨40, 41, 1, 0, none⟩], 5, 41, 0, none, 1⟩ : CalculationInputs ℚ)).2 (by decide)

/-- Witness for C3: at an age outside the only regime, the month step uses
the global rate and leaves contributions untouched. -/
theorem active_regime_first_match_witness :
    applyMonth (⟨[⟨(20 : ℚ), 30, 1, 2, none⟩], 20, 5, 0, 1, none⟩ : EngineCtx ℚ) 200
        (⟨100, 1, 0, 100, []⟩ : EngineState ℚ) =
      { (⟨100, 1, 0, 100, []⟩ : EngineState ℚ) with
        balance := 100 * (1 + (5 : ℚ) / 100 / 12)
        inflationMultiplier := (1 : ℚ) * 1 } :=
  (active_regime_first_match [⟨(20 : ℚ), 30, 1, 2, none⟩] 0).2.2.2.2
    ⟨[⟨(20 : ℚ), 30, 1, 2, none⟩], 20, 5, 0, 1, none⟩ 200
    ⟨100, 1, 0, 100, []⟩ (by decide)

/-- Witness for C4: a horizon before every start age yields one snapshot. -/
theorem single_snapshot_of_nonpositive_span_witness :
    ∃ s : YearlyBalance ℚ,
      calculateGrowth
          (⟨77, [⟨30, 40, 1, 2, none⟩, ⟨25, 30, 3, 0, none⟩], 5, 20, 0, none, 1⟩ :
            CalculationInputs ℚ) = .ok [s] ∧
        s.balance = 77 ∧ s.contributions = 77 ∧ s.growth = 0 ∧ s.taxPaid = 0 ∧
        ∃ p ∈ (⟨77, [⟨30, 40, 1, 2, none⟩, ⟨25, 30, 3, 0, none⟩], 5, 20, 0, none, 1⟩ :
            CalculationInputs ℚ).periods, s.age = p.startAge ∧
          ∀ q ∈ (⟨77, [⟨30, 40, 1, 2, none⟩, ⟨25, 30, 3, 0, none⟩], 5, 20, 0, none, 1⟩ :
            CalculationInputs ℚ).periods, s.age ≤ q.startAge :=
  single_snapshot_of_nonpositive_span
    ⟨77, [⟨30, 40, 1, 2, none⟩, ⟨25, 30, 3, 0, none⟩], 5, 20, 0, none, 1⟩
    (by decide) (by decide)

/-- Witness for C5 at a one-year run, read off at the age-31 snapshot. -/
theorem snapshot_balance_identity_witness :
    (⟨31, 100, 100, 100, 0, 0, 0⟩ : YearlyBalance ℚ).balance =
      (⟨31, 100, 100, 100, 0, 0, 0⟩ : YearlyBalance ℚ).contributions +
        (⟨31, 100, 100, 100, 0, 0, 0⟩ : YearlyBalance ℚ).growth :=
  snapshot_balance_eq_contributions_add_growth
    ⟨100, [⟨30, 31, 0, 0, none⟩], 0, 31, 0, none, 1⟩
    [⟨30, 100, 100, 100, 0, 0, 0⟩, ⟨31, 100, 100, 100, 0, 0, 0⟩] (by decide)
    ⟨31, 100, 100, 100, 0, 0, 0⟩ (by decide)

/-- Witness for C8 at a one-year run with zero inflation, read off at the
age-41 snapshot. -/
theorem realBalance_eq_balance_witness :
    (⟨41, 200, 200, 200, 0, 0, 0⟩ : YearlyBalance ℚ).realBalance =
      (⟨41, 200, 200, 200, 0, 0, 0⟩ : YearlyBalance ℚ).balance :=
  realBalance_eq_balance_of_zero_inflation
    ⟨200, [⟨40, 41, 0, 0, none⟩], 0, 41, 0, none, 1⟩
    [⟨40, 200, 200, 200, 0, 0, 0⟩, ⟨41, 200, 200, 200, 0, 0, 0⟩] (by decide) (by decide)
    ⟨41, 200, 200, 200, 0, 0, 0⟩ (by decide)

/-- Witness for C9: a degenerate regime alongside a real one. -/
theorem degenerate_period_never_selected_witness :
    (∃ l, calculateGrowth
        (⟨10, [⟨30, 30, 5, 5, none⟩, ⟨30, 31, 0, 0, none⟩], 0, 31, 0, none, 1⟩ :
          CalculationInputs ℚ) = .ok l) ∧
      ∀ age : ℚ, getPeriodForAge
          (sortPeriods [⟨30, 30, 5, 5, none⟩, ⟨30, 31, 0, 0, none⟩]) age ≠
        some ⟨30, 30, 5, 5, none⟩ :=
  degenerate_period_never_selected
    ⟨10, [⟨30, 30, 5, 5, none⟩, ⟨30, 31, 0, 0, none⟩], 0, 31, 0, none, 1⟩
    ⟨30, 30, 5, 5, none⟩ (by decide) (by decide) (by decide)

/-- Witness for C10: two regimes tied on `startAge`; the first-declared
containing regime is selected. -/
theorem tied_start_age_first_declared_wins_witness :
    periodContains (⟨30, 40, 1, 0, none⟩ : Period ℚ) 35
    ∧ (∀ p ∈ ([⟨30, 40, 1, 0, none⟩, ⟨30, 50, 2, 0, none⟩] : List (Period ℚ)),
        periodContains p 35 → (⟨30, 40, 1, 0, none⟩ : Period ℚ).startAge ≤ p.startAge)
    ∧ (([⟨30, 40, 1, 0, none⟩, ⟨30, 50, 2, 0, none⟩] : List (Period ℚ)).filter
        (fun p => decide (p.startAge = (⟨30, 40, 1, 0, none⟩ : Period ℚ).startAge))).find?
        (fun p => decide (periodContains p 35)) = some ⟨30, 40, 1, 0, none⟩
    ∧ ∀ k : ℚ, (sortPeriods [⟨30, 40, 1, 0, none⟩, ⟨30, 50, 2, 0, none⟩]).filter
        (fun p => decide (p.startAge = k)) =
      ([⟨30, 40, 1, 0, none⟩, ⟨30, 50, 2, 0, none⟩] : List (Period ℚ)).filter
        (fun p => decide (p.startAge = k)) :=
  tied_start_age_first_declared_wins
    [⟨30, 40, 1, 0, none⟩, ⟨30, 50, 2, 0, none⟩] 35 ⟨30, 40, 1, 0, none⟩ (by decide)

end Finances
